import Mathlib

/-!
Verification development for the ChainPay watch-to-earn repository.

The file shallowly embeds, in Lean 4, the parts of the repository that the
specification talks about:

* `RewardTreasury` — the Solidity treasury contract
  (src/blockchain/contracts/RewardTreasury.sol).  Contract storage is a
  record; `require` failures are `Except.error` and, per EVM semantics, a
  reverted call leaves storage unchanged.  Addresses and 32-byte claim ids
  are modelled as `Nat` (0 is the null address).  Solidity 0.8 checked
  arithmetic on the `uint256` counters is modelled with explicit
  `2 ^ 256` overflow guards; contract-balance changes are EVM value
  transfers (unchecked by the contract code, and physically unable to
  overflow), so they use plain `Nat` arithmetic.
* `GoClient` — the Go backend's blockchain client
  (src/backend/blockchain.go): recipient validation, claim-id derivation,
  nonce acquisition, gas estimation, signing, submission and the nonce
  rollback on failure.  The external ledger RPC is an oracle record; each
  submission returns a trace recording the outcome, the final nonce
  counter, how many network calls were made, how many rollbacks ran, and
  which transactions the ledger accepted.
* `NonceRace` — the shared nonce counter of `BlockchainClient` under
  interleaved atomic lock sections, used to exhibit the rollback race.
* `BlockMonitor` — the block polling loop of the backend server (main.go).
* `Server` — the WebSocket message loop and the HTTP heartbeat handler of
  the backend server (main.go).
-/

deriving instance DecidableEq for Except

namespace RewardTreasury

/-- The `uint256` modulus: Solidity 0.8 checked arithmetic reverts when a
sum reaches this bound. -/
def U : Nat := 2 ^ 256

/-- One revert reason per `require` in RewardTreasury.sol, plus the
implicit Solidity 0.8 checked-arithmetic revert. -/
inductive SolError where
  | notOwner
  | notRewardSigner
  | invalidRecipient
  | amountNotPositive
  | alreadyClaimed
  | insufficientBalance
  | transferFailed
  | arrayLengthMismatch
  | emptyBatch
  | batchTooLarge
  | mustSendEth
  | rateNotPositive
  | invalidSigner
  | invalidOwner
  | invalidWithdrawAddress
  | overflow
  deriving Repr, DecidableEq

/-- Contract storage of RewardTreasury.sol together with the contract's
ether balance.  `claimedRewards` lists the claim ids mapped to `true`;
`userTotalEarnings` is an association list with one entry per address that
ever earned (absent means 0), mirroring the two Solidity mappings. -/
structure State where
  owner : Nat
  rewardSigner : Nat
  totalRewardsDistributed : Nat
  totalClaimsProcessed : Nat
  rewardPerHeartbeat : Nat
  claimedRewards : List Nat
  userTotalEarnings : List (Nat × Nat)
  balance : Nat
  deriving Repr, DecidableEq

/-- Mapping read `userTotalEarnings[a]` (0 when the key is absent). -/
def lookupEarnings : List (Nat × Nat) → Nat → Nat
  | [], _ => 0
  | p :: rest, a => if p.1 = a then p.2 else lookupEarnings rest a

/-- Mapping write `userTotalEarnings[a] += amt`. -/
def creditEarnings : List (Nat × Nat) → Nat → Nat → List (Nat × Nat)
  | [], a, amt => [(a, amt)]
  | p :: rest, a, amt =>
      if p.1 = a then (p.1, p.2 + amt) :: rest else p :: creditEarnings rest a amt

/-- The constructor of RewardTreasury.sol: rejects a null signer, stores
owner and signer, sets the default rate of 1000 wei, and keeps any ether
sent along with deployment as the initial treasury balance. -/
def deploy (deployer signer value : Nat) : Except SolError State :=
  if signer = 0 then .error .invalidSigner
  else .ok
    { owner := deployer
      rewardSigner := signer
      totalRewardsDistributed := 0
      totalClaimsProcessed := 0
      rewardPerHeartbeat := 1000
      claimedRewards := []
      userTotalEarnings := []
      balance := value }

/-- `processReward(recipient, amount, claimId)` from RewardTreasury.sol.
Guards appear in source order: the `onlyRewardSigner` modifier, the
null-recipient check, the positive-amount check, the duplicate-claim
check, the treasury-balance check, then the checked `+=` updates, the
value transfer to the recipient and the event emission (events are not
modelled).  The recipient is an externally owned account, so the value
transfer succeeds exactly when the balance suffices, which the preceding
`require` has already ensured. -/
def processReward (caller recipient amount claimId : Nat) (s : State) :
    Except SolError State :=
  if caller ≠ s.rewardSigner then .error .notRewardSigner
  else if recipient = 0 then .error .invalidRecipient
  else if amount = 0 then .error .amountNotPositive
  else if claimId ∈ s.claimedRewards then .error .alreadyClaimed
  else if s.balance < amount then .error .insufficientBalance
  else if U ≤ s.totalRewardsDistributed + amount then .error .overflow
  else if U ≤ s.totalClaimsProcessed + 1 then .error .overflow
  else if U ≤ lookupEarnings s.userTotalEarnings recipient + amount then .error .overflow
  else .ok
    { s with
      claimedRewards := claimId :: s.claimedRewards
      totalRewardsDistributed := s.totalRewardsDistributed + amount
      totalClaimsProcessed := s.totalClaimsProcessed + 1
      userTotalEarnings := creditEarnings s.userTotalEarnings recipient amount
      balance := s.balance - amount }

/-- EVM call semantics for `processReward`: a reverted call returns the
caller's view of storage unchanged, together with the revert reason. -/
def processRewardCall (caller recipient amount claimId : Nat) (s : State) :
    State × Option SolError :=
  match processReward caller recipient amount claimId s with
  | .ok s' => (s', none)
  | .error e => (s, some e)

/-- The body of one iteration of the loop in `batchProcessRewards`:
per-entry null-recipient, positive-amount and duplicate-claim checks,
the stat updates and the per-entry value transfer. -/
def batchStep (s : State) (e : Nat × Nat × Nat) : Except SolError State :=
  if e.1 = 0 then .error .invalidRecipient
  else if e.2.1 = 0 then .error .amountNotPositive
  else if e.2.2 ∈ s.claimedRewards then .error .alreadyClaimed
  else if U ≤ s.totalRewardsDistributed + e.2.1 then .error .overflow
  else if U ≤ s.totalClaimsProcessed + 1 then .error .overflow
  else if U ≤ lookupEarnings s.userTotalEarnings e.1 + e.2.1 then .error .overflow
  else if s.balance < e.2.1 then .error .transferFailed
  else .ok
    { s with
      claimedRewards := e.2.2 :: s.claimedRewards
      totalRewardsDistributed := s.totalRewardsDistributed + e.2.1
      totalClaimsProcessed := s.totalClaimsProcessed + 1
      userTotalEarnings := creditEarnings s.userTotalEarnings e.1 e.2.1
      balance := s.balance - e.2.1 }

/-- Sum of a list of `uint256` values with checked arithmetic, as in the
`totalAmount` accumulation loop of `batchProcessRewards`. -/
def checkedSum : List Nat → Except SolError Nat
  | [] => .ok 0
  | a :: rest => do
      let t ← checkedSum rest
      if U ≤ a + t then .error .overflow else .ok (a + t)

/-- The per-entry loop of `batchProcessRewards`; a failing entry reverts
the whole call (`Except` short-circuits, and a reverted call never yields
a state). -/
def batchLoop : List (Nat × Nat × Nat) → State → Except SolError State
  | [], s => .ok s
  | e :: rest, s =>
      match batchStep s e with
      | .ok s' => batchLoop rest s'
      | .error err => .error err

/-- `batchProcessRewards(recipients, amounts, claimIds)` from
RewardTreasury.sol: the `onlyRewardSigner` modifier, the length-equality,
nonemptiness and size-bound checks, the checked `totalAmount` sum, the
up-front total-balance check, and then the per-entry loop. -/
def batchProcessRewards (caller : Nat) (recipients amounts claimIds : List Nat)
    (s : State) : Except SolError State :=
  if caller ≠ s.rewardSigner then .error .notRewardSigner
  else if ¬ (recipients.length = amounts.length ∧ amounts.length = claimIds.length) then
    .error .arrayLengthMismatch
  else if recipients.length = 0 then .error .emptyBatch
  else if 100 < recipients.length then .error .batchTooLarge
  else
    match checkedSum amounts with
    | .error e => .error e
    | .ok total =>
        if s.balance < total then .error .insufficientBalance
        else batchLoop (recipients.zip (amounts.zip claimIds)) s

/-- `fundTreasury()` — payable, rejects a zero deposit; the balance grows
by the EVM value transfer. -/
def fundTreasury (value : Nat) (s : State) : Except SolError State :=
  if value = 0 then .error .mustSendEth
  else .ok { s with balance := s.balance + value }

/-- The `receive()` function: any plain transfer grows the balance. -/
def receiveEther (value : Nat) (s : State) : State :=
  { s with balance := s.balance + value }

/-- `setRewardSigner(newSigner)` — owner only, rejects the null address. -/
def setRewardSigner (caller newSigner : Nat) (s : State) : Except SolError State :=
  if caller ≠ s.owner then .error .notOwner
  else if newSigner = 0 then .error .invalidSigner
  else .ok { s with rewardSigner := newSigner }

/-- `setRewardRate(newRate)` — owner only, rejects a zero rate. -/
def setRewardRate (caller newRate : Nat) (s : State) : Except SolError State :=
  if caller ≠ s.owner then .error .notOwner
  else if newRate = 0 then .error .rateNotPositive
  else .ok { s with rewardPerHeartbeat := newRate }

/-- `emergencyWithdraw(to, amount)` — owner only, rejects the null
address and amounts above the balance; transfers out of the treasury. -/
def emergencyWithdraw (caller dest amount : Nat) (s : State) : Except SolError State :=
  if caller ≠ s.owner then .error .notOwner
  else if dest = 0 then .error .invalidWithdrawAddress
  else if s.balance < amount then .error .insufficientBalance
  else .ok { s with balance := s.balance - amount }

/-- `transferOwnership(newOwner)` — owner only, rejects the null address. -/
def transferOwnership (caller newOwner : Nat) (s : State) : Except SolError State :=
  if caller ≠ s.owner then .error .notOwner
  else if newOwner = 0 then .error .invalidOwner
  else .ok { s with owner := newOwner }

/-- View `getTreasuryBalance()`. -/
def getTreasuryBalance (s : State) : Nat := s.balance

/-- View `getUserEarnings(user)`. -/
def getUserEarnings (s : State) (user : Nat) : Nat :=
  lookupEarnings s.userTotalEarnings user

/-- View `isClaimProcessed(claimId)`. -/
def isClaimProcessed (s : State) (claimId : Nat) : Bool :=
  claimId ∈ s.claimedRewards

/-- Result tuple of the `getStats()` view. -/
structure Stats where
  balance : Nat
  totalDistributed : Nat
  totalClaims : Nat
  ratePerHeartbeat : Nat
  deriving Repr, DecidableEq

/-- View `getStats()`: the read-back used by the backend's
`readTreasuryAggregate`. -/
def getStats (s : State) : Stats :=
  { balance := s.balance
    totalDistributed := s.totalRewardsDistributed
    totalClaims := s.totalClaimsProcessed
    ratePerHeartbeat := s.rewardPerHeartbeat }

/-- The settlement iteration behind the round-trip property: a sequence
of `processReward` calls, each paying `amountEach`, applied to the jobs
`(recipient, claimId)` in order; the run aborts on the first failure. -/
def runSettlements (caller amountEach : Nat) :
    List (Nat × Nat) → State → Except SolError State
  | [], s => .ok s
  | job :: rest, s =>
      match processReward caller job.1 amountEach job.2 s with
      | .ok s' => runSettlements caller amountEach rest s'
      | .error e => .error e

/-- States reachable through the contract's external interface: a
deployment followed by any sequence of successful state-mutating calls.
The view functions read storage without writing it, so they do not
appear as transitions. -/
inductive Reachable : State → Prop where
  | deployed (d r v : Nat) (s : State) :
      deploy d r v = .ok s → Reachable s
  | processRewardStep (caller r a c : Nat) (s s' : State) :
      Reachable s → processReward caller r a c s = .ok s' → Reachable s'
  | batchProcessStep (caller : Nat) (recipients amounts claimIds : List Nat)
      (s s' : State) :
      Reachable s → batchProcessRewards caller recipients amounts claimIds s = .ok s' →
      Reachable s'
  | fundStep (v : Nat) (s s' : State) :
      Reachable s → fundTreasury v s = .ok s' → Reachable s'
  | receiveStep (v : Nat) (s : State) :
      Reachable s → Reachable (receiveEther v s)
  | setSignerStep (caller newSigner : Nat) (s s' : State) :
      Reachable s → setRewardSigner caller newSigner s = .ok s' → Reachable s'
  | setRateStep (caller newRate : Nat) (s s' : State) :
      Reachable s → setRewardRate caller newRate s = .ok s' → Reachable s'
  | withdrawStep (caller dest amount : Nat) (s s' : State) :
      Reachable s → emergencyWithdraw caller dest amount s = .ok s' → Reachable s'
  | ownershipStep (caller newOwner : Nat) (s s' : State) :
      Reachable s → transferOwnership caller newOwner s = .ok s' → Reachable s'

/-- Sum of the recorded per-user earnings.  The earnings mapping has
finite support (its association-list keys), so this is the sum of
`userTotalEarnings` over all addresses. -/
def sumEarnings (l : List (Nat × Nat)) : Nat := (l.map Prod.snd).sum

/-- The bookkeeping invariant of the treasury: the distributed total is
the sum of all per-user earnings, and the claims counter counts the claim
ids marked claimed.  The two `Nodup` conjuncts state well-formedness of
the mapping representations: each claimed id and each earnings key is
recorded once, so `claimedRewards.length` really is the number of claim
ids mapped to `true`. -/
def Inv (s : State) : Prop :=
  s.totalRewardsDistributed = sumEarnings s.userTotalEarnings ∧
  s.totalClaimsProcessed = s.claimedRewards.length ∧
  s.claimedRewards.Nodup ∧
  (s.userTotalEarnings.map Prod.fst).Nodup

lemma sumEarnings_credit (l : List (Nat × Nat)) (a amt : Nat) :
    sumEarnings (creditEarnings l a amt) = sumEarnings l + amt := by
  induction l with
  | nil => simp [creditEarnings, sumEarnings]
  | cons p rest ih =>
      by_cases h : p.1 = a
      · simp [creditEarnings, sumEarnings, h]
        omega
      · simp [creditEarnings, sumEarnings, h] at ih ⊢
        omega

lemma mem_keys_credit {l : List (Nat × Nat)} {a amt x : Nat}
    (h : x ∈ (creditEarnings l a amt).map Prod.fst) :
    x ∈ l.map Prod.fst ∨ x = a := by
  induction l with
  | nil =>
      simp [creditEarnings] at h
      exact Or.inr h
  | cons p rest ih =>
      by_cases hp : p.1 = a
      · simp only [creditEarnings, if_pos hp, List.map_cons, List.mem_cons] at h ⊢
        exact Or.inl h
      · simp only [creditEarnings, if_neg hp, List.map_cons, List.mem_cons] at h ⊢
        rcases h with h | h
        · exact Or.inl (Or.inl h)
        · rcases ih h with h' | h'
          · exact Or.inl (Or.inr h')
          · exact Or.inr h'

lemma keysNodup_credit {l : List (Nat × Nat)} {a amt : Nat}
    (h : (l.map Prod.fst).Nodup) :
    ((creditEarnings l a amt).map Prod.fst).Nodup := by
  induction l with
  | nil => simp [creditEarnings]
  | cons p rest ih =>
      by_cases hp : p.1 = a
      · simpa [creditEarnings, if_pos hp] using h
      · simp only [List.map_cons, List.nodup_cons] at h
        simp only [creditEarnings, if_neg hp, List.map_cons, List.nodup_cons]
        refine ⟨?_, ih h.2⟩
        intro hmem
        rcases mem_keys_credit hmem with h' | h'
        · exact h.1 h'
        · exact hp h'

lemma inv_processReward {caller r a c : Nat} {s s' : State}
    (hI : Inv s) (h : processReward caller r a c s = .ok s') : Inv s' := by
  unfold processReward at h
  split_ifs at h with h1 h2 h3 h4 h5 h6 h7 h8 <;> try exact Except.noConfusion h
  injection h with h
  subst h
  obtain ⟨hd, hc, hnd, hk⟩ := hI
  refine ⟨?_, ?_, ?_, ?_⟩
  · simp [sumEarnings_credit, hd]
  · simp [hc]
  · exact List.nodup_cons.mpr ⟨h4, hnd⟩
  · exact keysNodup_credit hk

lemma inv_batchStep {s s' : State} {e : Nat × Nat × Nat}
    (hI : Inv s) (h : batchStep s e = .ok s') : Inv s' := by
  unfold batchStep at h
  split_ifs at h with h1 h2 h3 h4 h5 h6 h7 <;> try exact Except.noConfusion h
  injection h with h
  subst h
  obtain ⟨hd, hc, hnd, hk⟩ := hI
  refine ⟨?_, ?_, ?_, ?_⟩
  · simp [sumEarnings_credit, hd]
  · simp [hc]
  · exact List.nodup_cons.mpr ⟨h3, hnd⟩
  · exact keysNodup_credit hk

lemma inv_batchLoop {entries : List (Nat × Nat × Nat)} {s s' : State}
    (hI : Inv s) (h : batchLoop entries s = .ok s') : Inv s' := by
  induction entries generalizing s with
  | nil =>
      unfold batchLoop at h
      injection h with h
      subst h
      exact hI
  | cons e rest ih =>
      unfold batchLoop at h
      cases hstep : batchStep s e with
      | error err => rw [hstep] at h; exact Except.noConfusion h
      | ok s1 =>
          rw [hstep] at h
          exact ih (inv_batchStep hI hstep) h

lemma inv_batchProcessRewards {caller : Nat} {recipients amounts claimIds : List Nat}
    {s s' : State} (hI : Inv s)
    (h : batchProcessRewards caller recipients amounts claimIds s = .ok s') : Inv s' := by
  unfold batchProcessRewards at h
  split_ifs at h with h1 h2 h3 h4 <;> try exact Except.noConfusion h
  split at h
  · exact Except.noConfusion h
  · split_ifs at h with h5 <;> try exact Except.noConfusion h
    exact inv_batchLoop hI h

lemma inv_deploy {d r v : Nat} {s : State} (h : deploy d r v = .ok s) : Inv s := by
  unfold deploy at h
  split_ifs at h <;> try exact Except.noConfusion h
  injection h with h
  subst h
  exact ⟨rfl, rfl, List.nodup_nil, List.nodup_nil⟩

lemma inv_fundTreasury {v : Nat} {s s' : State}
    (hI : Inv s) (h : fundTreasury v s = .ok s') : Inv s' := by
  unfold fundTreasury at h
  split_ifs at h <;> try exact Except.noConfusion h
  injection h with h
  subst h
  exact hI

lemma inv_setRewardSigner {caller newSigner : Nat} {s s' : State}
    (hI : Inv s) (h : setRewardSigner caller newSigner s = .ok s') : Inv s' := by
  unfold setRewardSigner at h
  split_ifs at h <;> try exact Except.noConfusion h
  injection h with h
  subst h
  exact hI

lemma inv_setRewardRate {caller newRate : Nat} {s s' : State}
    (hI : Inv s) (h : setRewardRate caller newRate s = .ok s') : Inv s' := by
  unfold setRewardRate at h
  split_ifs at h <;> try exact Except.noConfusion h
  injection h with h
  subst h
  exact hI

lemma inv_emergencyWithdraw {caller dest amount : Nat} {s s' : State}
    (hI : Inv s) (h : emergencyWithdraw caller dest amount s = .ok s') : Inv s' := by
  unfold emergencyWithdraw at h
  split_ifs at h <;> try exact Except.noConfusion h
  injection h with h
  subst h
  exact hI

lemma inv_transferOwnership {caller newOwner : Nat} {s s' : State}
    (hI : Inv s) (h : transferOwnership caller newOwner s = .ok s') : Inv s' := by
  unfold transferOwnership at h
  split_ifs at h <;> try exact Except.noConfusion h
  injection h with h
  subst h
  exact hI

lemma processReward_ok_inversion {caller r a c : Nat} {s s1 : State}
    (h : processReward caller r a c s = .ok s1) :
    caller = s.rewardSigner ∧ r ≠ 0 ∧ a ≠ 0 ∧ c ∉ s.claimedRewards ∧
    s1.rewardSigner = s.rewardSigner ∧ s1.claimedRewards = c :: s.claimedRewards := by
  unfold processReward at h
  split_ifs at h with h1 h2 h3 h4 h5 h6 h7 h8 <;> try exact Except.noConfusion h
  injection h with h
  subst h
  exact ⟨not_not.mp h1, h2, h3, h4, rfl, rfl⟩

lemma processReward_duplicate {caller r a c : Nat} {s : State}
    (hsig : caller = s.rewardSigner) (hr : r ≠ 0) (ha : a ≠ 0)
    (hmem : c ∈ s.claimedRewards) :
    processReward caller r a c s = .error .alreadyClaimed := by
  unfold processReward
  simp [hsig, hr, ha, hmem]

lemma processReward_claimed_errors (caller r a : Nat) {c : Nat} {s : State}
    (hmem : c ∈ s.claimedRewards) :
    ∃ e, processReward caller r a c s = .error e := by
  unfold processReward
  split_ifs <;> first | exact ⟨_, rfl⟩ | exact absurd hmem (by assumption)

lemma processReward_stats {caller r a c : Nat} {s s' : State}
    (h : processReward caller r a c s = .ok s') :
    s'.totalRewardsDistributed = s.totalRewardsDistributed + a ∧
    s'.totalClaimsProcessed = s.totalClaimsProcessed + 1 := by
  unfold processReward at h
  split_ifs at h <;> try exact Except.noConfusion h
  injection h with h
  subst h
  exact ⟨rfl, rfl⟩

lemma runSettlements_stats {caller amountEach : Nat} {jobs : List (Nat × Nat)}
    {s s' : State} (h : runSettlements caller amountEach jobs s = .ok s') :
    s'.totalRewardsDistributed = s.totalRewardsDistributed + jobs.length * amountEach ∧
    s'.totalClaimsProcessed = s.totalClaimsProcessed + jobs.length := by
  induction jobs generalizing s with
  | nil =>
      unfold runSettlements at h
      injection h with h
      subst h
      simp
  | cons job rest ih =>
      unfold runSettlements at h
      cases hstep : processReward caller job.1 amountEach job.2 s with
      | error e => rw [hstep] at h; exact Except.noConfusion h
      | ok s1 =>
          rw [hstep] at h
          obtain ⟨hd, hc⟩ := processReward_stats hstep
          obtain ⟨hd', hc'⟩ := ih h
          constructor
          · rw [hd', hd, List.length_cons, Nat.succ_mul]
            omega
          · rw [hc', hc, List.length_cons]
            omega

/-- A freshly deployed treasury used as the concrete fixture of the
witnesses: owner 1, reward signer 2, 100 wei of funding. -/
def initS : State :=
  { owner := 1
    rewardSigner := 2
    totalRewardsDistributed := 0
    totalClaimsProcessed := 0
    rewardPerHeartbeat := 1000
    claimedRewards := []
    userTotalEarnings := []
    balance := 100 }

/-- `initS` after one successful `processReward 2 3 5 10`. -/
def midS : State :=
  { owner := 1
    rewardSigner := 2
    totalRewardsDistributed := 5
    totalClaimsProcessed := 1
    rewardPerHeartbeat := 1000
    claimedRewards := [10]
    userTotalEarnings := [(3, 5)]
    balance := 95 }

/-- `initS` after two successful settlements of 5 wei to recipients 3
and 4 with claim ids 10 and 11. -/
def finalS : State :=
  { owner := 1
    rewardSigner := 2
    totalRewardsDistributed := 10
    totalClaimsProcessed := 2
    rewardPerHeartbeat := 1000
    claimedRewards := [11, 10]
    userTotalEarnings := [(3, 5), (4, 5)]
    balance := 90 }

/-- C1: once a claim identifier has been consumed by a successful
`processReward` call, resubmitting the exact same call fails with the
duplicate-claim revert (`alreadyClaimed`) and leaves the contract state
— balance, `totalRewardsDistributed`, `totalClaimsProcessed` and every
recipient's `userTotalEarnings` — unchanged; more generally, any second
call whatsoever with that claim identifier reverts and leaves the state
unchanged. -/
theorem processReward_duplicate_claim_rejected
    (caller r a c : Nat) (s s1 : State)
    (h : processReward caller r a c s = .ok s1) :
    processRewardCall caller r a c s1 = (s1, some .alreadyClaimed) ∧
    ∀ caller' r' a' : Nat,
      (processRewardCall caller' r' a' c s1).1 = s1 ∧
      (processRewardCall caller' r' a' c s1).2 ≠ none := by
  obtain ⟨hsig, hr, ha, _, hsig1, hclaims1⟩ := processReward_ok_inversion h
  have hmem : c ∈ s1.claimedRewards := by
    rw [hclaims1]; exact List.mem_cons_self c _
  constructor
  · have hdup := processReward_duplicate (s := s1) (hsig.trans hsig1.symm) hr ha hmem
    simp [processRewardCall, hdup]
  · intro caller' r' a'
    obtain ⟨e, he⟩ := processReward_claimed_errors caller' r' a' hmem
    simp [processRewardCall, he]

/-- C1 witness: concrete duplicate rejection after the settlement
`processReward 2 3 5 10` on the fixture treasury. -/
theorem processReward_duplicate_claim_rejected_witness :
    processReward 2 3 5 10 initS = .ok midS ∧
    (processRewardCall 2 3 5 10 midS = (midS, some .alreadyClaimed) ∧
      ∀ caller' r' a' : Nat,
        (processRewardCall caller' r' a' 10 midS).1 = midS ∧
        (processRewardCall caller' r' a' 10 midS).2 ≠ none) :=
  ⟨by decide, processReward_duplicate_claim_rejected 2 3 5 10 initS midS (by decide)⟩

/-- C6: starting from zero counters, after `K` successful settlements of
`amountEach` wei each, the aggregate read-back `getStats` reports a
distributed total of `K * amountEach` and `K` claims processed. -/
theorem getStats_after_settlements
    (caller amountEach : Nat) (jobs : List (Nat × Nat)) (s0 sK : State)
    (hd0 : s0.totalRewardsDistributed = 0) (hc0 : s0.totalClaimsProcessed = 0)
    (h : runSettlements caller amountEach jobs s0 = .ok sK) :
    (getStats sK).totalDistributed = jobs.length * amountEach ∧
    (getStats sK).totalClaims = jobs.length := by
  obtain ⟨hd, hc⟩ := runSettlements_stats h
  rw [getStats]
  exact ⟨by rw [hd, hd0, Nat.zero_add], by rw [hc, hc0, Nat.zero_add]⟩

/-- C6 witness: two settlements of 5 wei on the fixture treasury report
distributed total 10 and 2 claims. -/
theorem getStats_after_settlements_witness :
    initS.totalRewardsDistributed = 0 ∧ initS.totalClaimsProcessed = 0 ∧
    runSettlements 2 5 [(3, 10), (4, 11)] initS = .ok finalS ∧
    ((getStats finalS).totalDistributed = 2 * 5 ∧ (getStats finalS).totalClaims = 2) :=
  ⟨rfl, rfl, by decide,
    getStats_after_settlements 2 5 [(3, 10), (4, 11)] initS finalS rfl rfl (by decide)⟩

/-- C10: in every reachable contract state, `totalRewardsDistributed`
equals the sum of `userTotalEarnings` over all addresses and
`totalClaimsProcessed` equals the number of claim identifiers marked
`true` in `claimedRewards` (together with well-formedness of both
mapping representations); every state-mutating operation — deployment,
`processReward`, `batchProcessRewards`, funding, `receive`, and all the
admin functions — preserves this, and the view functions do not write
storage at all. -/
theorem treasury_invariant_reachable (s : State) (h : Reachable s) : Inv s := by
  induction h with
  | deployed d r v s hdep => exact inv_deploy hdep
  | processRewardStep caller r a c s s' _ hstep ih => exact inv_processReward ih hstep
  | batchProcessStep caller rs as cs s s' _ hstep ih => exact inv_batchProcessRewards ih hstep
  | fundStep v s s' _ hstep ih => exact inv_fundTreasury ih hstep
  | receiveStep v s _ ih => exact ih
  | setSignerStep caller ns s s' _ hstep ih => exact inv_setRewardSigner ih hstep
  | setRateStep caller nr s s' _ hstep ih => exact inv_setRewardRate ih hstep
  | withdrawStep caller d amt s s' _ hstep ih => exact inv_emergencyWithdraw ih hstep
  | ownershipStep caller no s s' _ hstep ih => exact inv_transferOwnership ih hstep

/-- C10 witness: the fixture state after one settlement is reachable and
satisfies the invariant. -/
theorem treasury_invariant_reachable_witness : Reachable midS ∧ Inv midS :=
  have hreach : Reachable midS :=
    Reachable.processRewardStep 2 3 5 10 initS midS
      (Reachable.deployed 1 2 100 initS (by decide)) (by decide)
  ⟨hreach, treasury_invariant_reachable midS hreach⟩

end RewardTreasury

namespace GoClient

/-- `big.Int.Bytes()` for a nonnegative value: the minimal big-endian
byte string (empty for zero). -/
def natBytesBE (n : Nat) : List Nat :=
  if h : n = 0 then [] else natBytesBE (n / 256) ++ [n % 256]
decreasing_by exact Nat.div_lt_self (Nat.pos_of_ne_zero h) (by decide)

/-- Big-endian value of a byte string; the left inverse of `natBytesBE`. -/
def bytesVal (l : List Nat) : Nat := l.foldl (fun acc b => acc * 256 + b) 0

lemma bytesVal_append_singleton (l : List Nat) (b : Nat) :
    bytesVal (l ++ [b]) = bytesVal l * 256 + b := by
  simp [bytesVal, List.foldl_append]

lemma bytesVal_natBytesBE (n : Nat) : bytesVal (natBytesBE n) = n := by
  induction n using Nat.strong_induction_on with
  | _ n ih =>
      by_cases h : n = 0
      · subst h
        simp [natBytesBE, bytesVal]
      · conv_lhs => rw [natBytesBE]
        rw [dif_neg h, bytesVal_append_singleton,
          ih (n / 256) (Nat.div_lt_self (Nat.pos_of_ne_zero h) (by decide))]
        omega

lemma natBytesBE_injective : Function.Injective natBytesBE := by
  intro a b h
  have hv := congrArg bytesVal h
  rwa [bytesVal_natBytesBE, bytesVal_natBytesBE] at hv

/-- An injective (but not cryptographic) byte-string digest, used to
instantiate the abstract hash parameter in concrete witnesses. -/
def listEncode : List Nat → Nat
  | [] => 0
  | b :: rest => Nat.pair b (listEncode rest) + 1

lemma listEncode_injective : Function.Injective listEncode := by
  intro l1
  induction l1 with
  | nil =>
      intro l2 h
      cases l2 with
      | nil => rfl
      | cons b rest => simp [listEncode] at h
  | cons b rest ih =>
      intro l2 h
      cases l2 with
      | nil => simp [listEncode] at h
      | cons b2 rest2 =>
          simp only [listEncode] at h
          have hp : Nat.pair b (listEncode rest) = Nat.pair b2 (listEncode rest2) := by omega
          have hbr := Nat.pair_eq_pair.mp hp
          rw [hbr.1, ih hbr.2]

/-- The byte string fed to `crypto.Keccak256Hash` when deriving a claim
id in `sendContractReward`: the 20 recipient address bytes, then
`amount.Bytes()`, then `big.NewInt(time.Now().UnixNano()).Bytes()`
(`Keccak256Hash` hashes the concatenation of its slice arguments;
`big.Int.Bytes()` takes the absolute value, and `UnixNano` timestamps
are nonnegative, so they are modelled as `Nat`). -/
def claimMessage (recipientBytes : List Nat) (amount : Int) (unixNano : Nat) : List Nat :=
  recipientBytes ++ natBytesBE amount.natAbs ++ natBytesBE unixNano

/-- The claim identifier of `sendContractReward`, parametric in the
Keccak-256 digest function (external library code, modelled as an
abstract function). -/
def claimID (keccak : List Nat → Nat) (recipientBytes : List Nat)
    (amount : Int) (unixNano : Nat) : Nat :=
  keccak (claimMessage recipientBytes amount unixNano)

/-- `common.IsHexAddress` helper: is `c` a hexadecimal digit? -/
def isHexCharacter (c : Char) : Bool :=
  ('0' ≤ c && c ≤ '9') || ('a' ≤ c && c ≤ 'f') || ('A' ≤ c && c ≤ 'F')

/-- go-ethereum's `has0xPrefix`: the string starts with `0x` or `0X`. -/
def hasHexMark : List Char → Bool
  | '0' :: c :: _ => c == 'x' || c == 'X'
  | _ => false

/-- go-ethereum's `common.IsHexAddress`: after stripping an optional
`0x`, exactly 40 hex characters (40 is even, so `isHex`'s evenness check
is subsumed). -/
def isHexAddress (s : List Char) : Bool :=
  let t := if hasHexMark s then s.drop 2 else s
  t.length == 40 && t.all isHexCharacter

/-- Value of one hex digit. -/
def hexDigitVal (c : Char) : Nat :=
  if '0' ≤ c && c ≤ '9' then c.toNat - '0'.toNat
  else if 'a' ≤ c && c ≤ 'f' then c.toNat - 'a'.toNat + 10
  else if 'A' ≤ c && c ≤ 'F' then c.toNat - 'A'.toNat + 10
  else 0

/-- Hex-decode consecutive digit pairs to bytes. -/
def hexBytes : List Char → List Nat
  | c1 :: c2 :: rest => (hexDigitVal c1 * 16 + hexDigitVal c2) :: hexBytes rest
  | _ => []

/-- `common.HexToAddress(s).Bytes()` for a validated address string. -/
def addressBytes (s : List Char) : List Nat :=
  hexBytes (if hasHexMark s then s.drop 2 else s)

/-- Client-side error taxonomy.  `invalidRecipient` is the one local
validation error the Go client produces; `invalidAmount` appears in the
spec's taxonomy and is included so that its absence from the code's
behavior can be stated; the rest wrap RPC/signing failures
(`failed to get gas price`, `failed to estimate gas`,
`failed to sign transaction`, `failed to send transaction`). -/
inductive GoError where
  | invalidRecipient
  | invalidAmount
  | gasPriceFailed
  | estimateGasFailed
  | signFailed
  | sendFailed
  deriving Repr, DecidableEq

/-- Oracle for the external ledger RPC and the signing library: `none`
models a failed `SuggestGasPrice`/`EstimateGas` call, the flags model
`types.SignTx` and `SendTransaction` outcomes. -/
structure Ledger where
  suggestGasPrice : Option Nat
  estimateGas : Option Nat
  signOk : Bool
  sendOk : Bool
  deriving Repr, DecidableEq

/-- A transaction handed to `types.NewTransaction`: for the contract
path, `toAddr` is the treasury address, `value` is 0 and `callData`
packs `(recipient bytes, amount, claimId)` for `processReward`; for the
direct-transfer fallback, `toAddr` is the recipient, `value` the amount
and `callData` empty. -/
structure Tx where
  nonce : Nat
  toAddr : List Char
  value : Int
  gasLimit : Nat
  gasPrice : Nat
  callData : Option (List Nat × Int × Nat)
  deriving Repr, DecidableEq

/-- The returned transaction hash, modelled as an injective function of
the nonce (one hash per transaction from this single signing account). -/
def txHash (t : Tx) : String := "0xtx" ++ toString t.nonce

/-- Observable trace of one submission attempt: the returned value, the
final value of the client's nonce counter, how many network calls were
made, how many times the nonce counter was decremented (rolled back),
how many `SendTransaction` calls were attempted, and which transactions
the ledger accepted. -/
structure SubmitTrace where
  result : Except GoError String
  finalNonce : Nat
  networkCalls : Nat
  rollbacks : Nat
  sendAttempts : Nat
  accepted : List Tx
  deriving Repr, DecidableEq

/-- `sendContractReward` from src/backend/blockchain.go: validate the
recipient format locally; derive the claim id and pack the call data
(pure, local; packing against the fixed ABI cannot fail here); call
`SuggestGasPrice` (network); acquire the nonce under the mutex and
optimistically advance the counter; call `EstimateGas` (network); build
and sign the transaction; `SendTransaction` (network).  Every failure
after the nonce acquisition decrements the counter by one.  Note there
is no validation of `amount` anywhere in this function. -/
def sendContractReward (L : Ledger) (keccak : List Nat → Nat)
    (contractAddress : List Char) (nonce0 : Nat) (recipient : List Char)
    (amount : Int) (unixNano : Nat) : SubmitTrace :=
  if isHexAddress recipient then
    match L.suggestGasPrice with
    | none =>
        { result := .error .gasPriceFailed, finalNonce := nonce0, networkCalls := 1,
          rollbacks := 0, sendAttempts := 0, accepted := [] }
    | some gasPrice =>
        match L.estimateGas with
        | none =>
            { result := .error .estimateGasFailed, finalNonce := nonce0, networkCalls := 2,
              rollbacks := 1, sendAttempts := 0, accepted := [] }
        | some gasLimit =>
            let tx : Tx :=
              { nonce := nonce0, toAddr := contractAddress, value := 0,
                gasLimit := gasLimit, gasPrice := gasPrice,
                callData := some (addressBytes recipient, amount,
                  claimID keccak (addressBytes recipient) amount unixNano) }
            if L.signOk then
              if L.sendOk then
                { result := .ok (txHash tx), finalNonce := nonce0 + 1, networkCalls := 3,
                  rollbacks := 0, sendAttempts := 1, accepted := [tx] }
              else
                { result := .error .sendFailed, finalNonce := nonce0, networkCalls := 3,
                  rollbacks := 1, sendAttempts := 1, accepted := [] }
            else
              { result := .error .signFailed, finalNonce := nonce0, networkCalls := 2,
                rollbacks := 1, sendAttempts := 0, accepted := [] }
  else
    { result := .error .invalidRecipient, finalNonce := nonce0, networkCalls := 0,
      rollbacks := 0, sendAttempts := 0, accepted := [] }

/-- `sendDirectTransfer` from src/backend/blockchain.go (fallback when
no contract address is configured): validate the recipient, call
`SuggestGasPrice` (network), acquire the nonce, build and sign a plain
value transfer with the fixed 21000 gas limit, `SendTransaction`
(network); failures after nonce acquisition decrement the counter.  No
validation of `amount` here either: a zero-value transfer is built and
submitted. -/
def sendDirectTransfer (L : Ledger) (nonce0 : Nat) (recipient : List Char)
    (amount : Int) : SubmitTrace :=
  if isHexAddress recipient then
    match L.suggestGasPrice with
    | none =>
        { result := .error .gasPriceFailed, finalNonce := nonce0, networkCalls := 1,
          rollbacks := 0, sendAttempts := 0, accepted := [] }
    | some gasPrice =>
        let tx : Tx :=
          { nonce := nonce0, toAddr := recipient, value := amount,
            gasLimit := 21000, gasPrice := gasPrice, callData := none }
        if L.signOk then
          if L.sendOk then
            { result := .ok (txHash tx), finalNonce := nonce0 + 1, networkCalls := 2,
              rollbacks := 0, sendAttempts := 1, accepted := [tx] }
          else
            { result := .error .sendFailed, finalNonce := nonce0, networkCalls := 2,
              rollbacks := 1, sendAttempts := 1, accepted := [] }
        else
          { result := .error .signFailed, finalNonce := nonce0, networkCalls := 1,
            rollbacks := 1, sendAttempts := 0, accepted := [] }
  else
    { result := .error .invalidRecipient, finalNonce := nonce0, networkCalls := 0,
      rollbacks := 0, sendAttempts := 0, accepted := [] }

/-- `ProcessReward` from src/backend/blockchain.go: direct transfer when
no contract address is configured, contract call otherwise. -/
def ProcessReward (L : Ledger) (keccak : List Nat → Nat)
    (contractAddress : List Char) (nonce0 : Nat) (recipient : List Char)
    (amount : Int) (unixNano : Nat) : SubmitTrace :=
  if contractAddress.isEmpty then sendDirectTransfer L nonce0 recipient amount
  else sendContractReward L keccak contractAddress nonce0 recipient amount unixNano

/-- The outcome the spec prescribes for a failure after nonce
acquisition: an error result, the counter back at its pre-call value
after exactly one rollback decrement, nothing accepted by the ledger,
and no automatic retry (at most one send attempt). -/
def rolledBack (tr : SubmitTrace) (nonce0 : Nat) : Prop :=
  (∃ e, tr.result = .error e) ∧ tr.finalNonce = nonce0 ∧ tr.rollbacks = 1 ∧
  tr.accepted = [] ∧ tr.sendAttempts ≤ 1

/-- A ledger oracle on which every network and signing step succeeds. -/
def allOkLedger : Ledger :=
  { suggestGasPrice := some 1, estimateGas := some 50000, signOk := true, sendOk := true }

/-- A ledger oracle whose gas estimation fails. -/
def estFailLedger : Ledger :=
  { suggestGasPrice := some 1, estimateGas := none, signOk := true, sendOk := true }

/-- A well-formed sample recipient address. -/
def sampleRecipient : List Char :=
  "0x1111111111111111111111111111111111111111".toList

/-- A well-formed sample treasury contract address. -/
def sampleContract : List Char :=
  "0x2222222222222222222222222222222222222222".toList

/-- C3 counterexample: with amount = 0 and a ledger that accepts, the
client does not fail at all — in fallback mode `ProcessReward` submits a
zero-value transfer and succeeds after 2 network calls, and in contract
mode it proceeds through 3 network calls; in neither mode does any
`invalidAmount` error arise before a network call. -/
theorem processReward_zero_amount_not_rejected_locally :
    (ProcessReward allOkLedger listEncode [] 7 sampleRecipient 0 5).result = .ok "0xtx7" ∧
    (ProcessReward allOkLedger listEncode [] 7 sampleRecipient 0 5).networkCalls = 2 ∧
    (ProcessReward allOkLedger listEncode [] 7 sampleRecipient 0 5).result ≠
      .error .invalidAmount ∧
    (ProcessReward allOkLedger listEncode sampleContract 7 sampleRecipient 0 5).networkCalls = 3 ∧
    (ProcessReward allOkLedger listEncode sampleContract 7 sampleRecipient 0 5).result ≠
      .error .invalidAmount := by
  refine ⟨by decide, by decide, by decide, ?_, ?_⟩ <;>
    simp [ProcessReward, sendContractReward, sampleContract, allOkLedger,
      show isHexAddress sampleRecipient = true by decide]

/-- C3 amended: `ProcessReward` performs recipient-format validation
only.  A malformed recipient fails locally with the invalid-recipient
error, before any network call, with the nonce counter unchanged and
nothing submitted.  A non-positive amount is not rejected locally: with
a well-formed recipient the call always reaches the network (at least
one network call) and never produces an `invalidAmount` error, whatever
the amount. -/
theorem processReward_validates_recipient_only
    (L : Ledger) (keccak : List Nat → Nat) (contractAddress : List Char)
    (nonce0 : Nat) (recipient : List Char) (amount : Int) (unixNano : Nat) :
    (isHexAddress recipient = false →
      ProcessReward L keccak contractAddress nonce0 recipient amount unixNano =
        { result := .error .invalidRecipient, finalNonce := nonce0, networkCalls := 0,
          rollbacks := 0, sendAttempts := 0, accepted := [] }) ∧
    (isHexAddress recipient = true →
      (ProcessReward L keccak contractAddress nonce0 recipient amount unixNano).result ≠
        .error .invalidAmount ∧
      1 ≤ (ProcessReward L keccak contractAddress nonce0 recipient amount
        unixNano).networkCalls) := by
  constructor
  · intro hbad
    unfold ProcessReward
    split_ifs with h1 <;> simp [sendDirectTransfer, sendContractReward, hbad]
  · intro hgood
    unfold ProcessReward sendDirectTransfer sendContractReward
    rcases L with ⟨sp, est, sok, dok⟩
    cases contractAddress.isEmpty <;> cases sp <;> cases est <;> cases sok <;> cases dok <;>
      simp [hgood]

/-- C3 witness: at a malformed recipient the call fails locally, and at
a well-formed recipient with amount 0 the call reaches the network. -/
theorem processReward_validates_recipient_only_witness :
    (isHexAddress [] = false ∧
      ProcessReward allOkLedger listEncode [] 7 [] 0 5 =
        { result := .error .invalidRecipient, finalNonce := 7, networkCalls := 0,
          rollbacks := 0, sendAttempts := 0, accepted := [] }) ∧
    (isHexAddress sampleRecipient = true ∧
      ((ProcessReward allOkLedger listEncode [] 7 sampleRecipient 0 5).result ≠
        .error .invalidAmount ∧
      1 ≤ (ProcessReward allOkLedger listEncode [] 7 sampleRecipient 0 5).networkCalls)) :=
  ⟨⟨by decide,
    (processReward_validates_recipient_only allOkLedger listEncode [] 7 [] 0 5).1 (by decide)⟩,
   ⟨by decide,
    (processReward_validates_recipient_only allOkLedger listEncode [] 7 sampleRecipient 0
      5).2 (by decide)⟩⟩

/-- C4: whenever a submission fails after the nonce has been acquired —
gas estimation failure, signing failure, or network failure at send time
— the nonce counter is decremented exactly once back to its pre-call
value, the ledger accepts nothing, the attempt is reported to the caller
as an error, and no automatic retry happens (at most one send attempt);
this holds for the contract path and for the direct-transfer fallback. -/
theorem nonce_rolled_back_on_failure
    (L : Ledger) (keccak : List Nat → Nat) (contractAddress : List Char)
    (nonce0 : Nat) (recipient : List Char) (amount : Int) (unixNano : Nat)
    (hr : isHexAddress recipient = true) :
    (L.suggestGasPrice.isSome = true →
      (L.estimateGas = none ∨ L.signOk = false ∨ L.sendOk = false) →
      rolledBack (sendContractReward L keccak contractAddress nonce0 recipient amount
        unixNano) nonce0) ∧
    (L.suggestGasPrice.isSome = true →
      (L.signOk = false ∨ L.sendOk = false) →
      rolledBack (sendDirectTransfer L nonce0 recipient amount) nonce0) := by
  rcases L with ⟨sp, est, sok, dok⟩
  unfold sendContractReward sendDirectTransfer rolledBack
  cases sp <;> cases est <;> cases sok <;> cases dok <;> simp [hr]

/-- C4 witness: a concrete gas-estimation failure rolls the counter back
from 8 to 7 with one decrement and reports the failure. -/
theorem nonce_rolled_back_on_failure_witness :
    isHexAddress sampleRecipient = true ∧
    estFailLedger.suggestGasPrice.isSome = true ∧
    (estFailLedger.estimateGas = none ∨ estFailLedger.signOk = false ∨
      estFailLedger.sendOk = false) ∧
    rolledBack (sendContractReward estFailLedger listEncode sampleContract 7
      sampleRecipient 5 9) 7 :=
  ⟨by decide, rfl, Or.inl rfl,
    (nonce_rolled_back_on_failure estFailLedger listEncode sampleContract 7 sampleRecipient
      5 9 (by decide)).1 rfl (Or.inl rfl)⟩

/-- C7: the claim-id generator is the pure function
`(recipient, amount, timestamp) ↦ keccak(recipientBytes ++ amountBytes
++ timestampBytes)`; for a fixed recipient and amount, distinct
timestamps produce distinct hash preimages, and therefore — for any
injective digest function — distinct claim identifiers. -/
theorem claim_identifiers_distinct
    (keccak : List Nat → Nat) (hinj : Function.Injective keccak)
    (recipientBytes : List Nat) (amount : Int) (t t' : Nat) (hne : t ≠ t') :
    claimMessage recipientBytes amount t ≠ claimMessage recipientBytes amount t' ∧
    claimID keccak recipientBytes amount t ≠ claimID keccak recipientBytes amount t' := by
  have hmsg : claimMessage recipientBytes amount t ≠ claimMessage recipientBytes amount t' := by
    intro h
    exact hne (natBytesBE_injective (List.append_cancel_left h))
  exact ⟨hmsg, fun h => hmsg (hinj h)⟩

/-- C7 witness: with the injective digest `listEncode`, two attempts
sharing recipient bytes and amount but with timestamps 1 and 2 get
distinct claim identifiers. -/
theorem claim_identifiers_distinct_witness :
    Function.Injective listEncode ∧ (1 : Nat) ≠ 2 ∧
    (claimMessage [1, 2] 3 1 ≠ claimMessage [1, 2] 3 2 ∧
      claimID listEncode [1, 2] 3 1 ≠ claimID listEncode [1, 2] 3 2) :=
  ⟨listEncode_injective, by decide,
    claim_identifiers_distinct listEncode listEncode_injective [1, 2] 3 1 2 (by decide)⟩

end GoClient

namespace NonceRace

/-!
The shared nonce counter of `BlockchainClient` under concurrency.  The
mutex makes three operations atomic, and nothing else is serialized:

* `acquire t` — task `t` runs the critical section
  `nonce := bc.currentNonce; bc.currentNonce++` and remembers its nonce;
* `rollback t` — task `t`, having failed after acquisition, runs the
  critical section `bc.currentNonce--`;
* `submit t` — task `t` calls `SendTransaction` with its remembered
  nonce (outside any lock).

An execution is a list of these atomic events; any interleaving in which
each task acquires once and then either submits once or rolls back once
is a possible schedule of concurrent `sendContractReward` /
`sendDirectTransfer` calls.
-/

inductive Event where
  | acquire (task : Nat)
  | rollback (task : Nat)
  | submit (task : Nat)
  deriving Repr, DecidableEq

/-- Counter value, per-task acquired nonces, and the (task, nonce) pairs
handed to the ledger, in submission order. -/
structure RaceState where
  counter : Nat
  assigned : List (Nat × Nat)
  submitted : List (Nat × Nat)
  deriving Repr, DecidableEq

def step (s : RaceState) : Event → RaceState
  | .acquire t =>
      { s with counter := s.counter + 1, assigned := (t, s.counter) :: s.assigned }
  | .rollback _ => { s with counter := s.counter - 1 }
  | .submit t =>
      match s.assigned.find? (fun p => p.1 == t) with
      | some p => { s with submitted := s.submitted ++ [(t, p.2)] }
      | none => s

/-- Run an interleaving from initial counter value `k` with no nonces
assigned or submitted. -/
def run (k : Nat) (es : List Event) : RaceState :=
  es.foldl step { counter := k, assigned := [], submitted := [] }

/-- The §9 rollback-race schedule: task 0 acquires nonce k and fails,
tasks 1 and 2 acquire and submit; task 0's rollback lands between the
acquisitions of tasks 1 and 2. -/
def raceTrace : List Event :=
  [.acquire 0, .acquire 1, .rollback 0, .acquire 2, .submit 1, .submit 2]

/-- Each task of `raceTrace` follows the client's program order: acquire
first, then exactly one of submit (success) or rollback (failure). -/
def wellFormedAttempt (t : Nat) (es : List Event) : Bool :=
  match es.filter (fun e =>
    match e with
    | .acquire u => u == t
    | .rollback u => u == t
    | .submit u => u == t) with
  | [.acquire _, .submit _] => true
  | [.acquire _, .rollback _] => true
  | _ => false

/-- C2 refutation at the failing schedule: running the three concurrent
attempts of `raceTrace` from counter k = 0, the ledger receives two
transactions that both carry sequence number 1 (tasks 1 and 2), the
sequence numbers actually used are not {0, 1, 2}, and nonce 0 is a
permanent gap even though the counter has advanced to 2.  Each task
individually follows the code's acquire-then-submit-or-rollback order,
so this is a possible schedule. -/
theorem nonce_race_duplicate_sequence_numbers :
    wellFormedAttempt 0 raceTrace = true ∧
    wellFormedAttempt 1 raceTrace = true ∧
    wellFormedAttempt 2 raceTrace = true ∧
    (run 0 raceTrace).submitted = [(1, 1), (2, 1)] ∧
    ((run 0 raceTrace).submitted.map Prod.snd).Nodup = False ∧
    (run 0 raceTrace).counter = 2 ∧
    0 ∉ (run 0 raceTrace).submitted.map Prod.snd := by
  refine ⟨rfl, rfl, rfl, rfl, ?_, rfl, by decide⟩
  simp [run, raceTrace, step]

end NonceRace

namespace BlockMonitor

/-!
The `blockMonitor` loop of the backend server: every tick it reads the
latest block; on a read error it just continues; when the polled height
strictly exceeds `lastBlock` (a `uint64` starting at 0) it records the
new height and publishes the block to the update channel.  Only the
height drives the publish decision, so polls are modelled by their
heights (`none` = a failed `GetLatestBlock` call).
-/

/-- One loop iteration: the new `lastBlock` and the heights published
during this iteration. -/
def pollStep (lastBlock : Nat) : Option Nat → Nat × List Nat
  | none => (lastBlock, [])
  | some n => if lastBlock < n then (n, [n]) else (lastBlock, [])

/-- Run the monitor over a sequence of polls, collecting all published
heights in order. -/
def monitorRun (lastBlock : Nat) : List (Option Nat) → Nat × List Nat
  | [] => (lastBlock, [])
  | p :: ps =>
      let r := pollStep lastBlock p
      let rest := monitorRun r.1 ps
      (rest.1, r.2 ++ rest.2)

/-- C5 counterexample: the monitor as coded starts with `lastBlock = 0`,
so the poll sequence 5, 5, 6, 8 publishes three block events — 5, 6
and 8 — not exactly two. -/
theorem blockMonitor_five_five_six_eight_publishes_three :
    (monitorRun 0 [some 5, some 5, some 6, some 8]).2 = [5, 6, 8] ∧
    (monitorRun 0 [some 5, some 5, some 6, some 8]).2.length ≠ 2 := by
  constructor <;> decide

/-- C5 amended: a block event is published exactly when the polled
height strictly exceeds the running last observed height (and then
exactly one event, for that height; failed polls publish nothing).  For
the poll sequence 5, 5, 6, 8 from the monitor's initial state
(`lastBlock = 0`) exactly three events are published — 5, 6, 8 — with
none for the repeated 5; exactly two events (6 and 8) are published
only when the last observed height is already 5 when the sequence
starts. -/
theorem blockMonitor_publishes_iff_height_increases :
    (∀ last n : Nat,
      pollStep last (some n) = if last < n then (n, [n]) else (last, [])) ∧
    (∀ last : Nat, pollStep last none = (last, [])) ∧
    (monitorRun 0 [some 5, some 5, some 6, some 8]).2 = [5, 6, 8] ∧
    (monitorRun 5 [some 5, some 5, some 6, some 8]).2 = [6, 8] := by
    exact ⟨fun last n => rfl, fun last => rfl, by decide, by decide⟩

end BlockMonitor

namespace Server

open GoClient (GoError)

/-- `err.Error()` for the client-side errors, as interpolated into the
servers' failure messages. -/
def errString : GoError → String
  | .invalidRecipient => "invalid recipient address"
  | .invalidAmount => "invalid amount"
  | .gasPriceFailed => "failed to get gas price"
  | .estimateGasFailed => "failed to estimate gas"
  | .signFailed => "failed to sign transaction"
  | .sendFailed => "failed to send transaction"

/-- `ClientSession` from the backend server: the per-connection state
mutated by the WebSocket message loop (the connection handle and
creation time play no role in the modelled behavior). -/
structure ClientSession where
  walletAddress : String
  heartbeats : Nat
  totalEarned : Nat
  deriving Repr, DecidableEq

/-- The recognized inbound WebSocket message kinds, dispatched on
`msg["type"]`.  `register` carries `msg["wallet_address"]` when that
field is a string (`none` models a failed type assertion); `other` is
any unrecognized type, which the switch ignores. -/
inductive WSMessage where
  | register (walletAddress : Option String)
  | heartbeat
  | ping
  | other
  deriving Repr, DecidableEq

/-- Outbound WebSocket frames written by the message loop: the reward
outcome frame (with `total_earned` and balance fields only on success
and the error string only on failure), and the pong frame. -/
inductive WSResponse where
  | reward (success : Bool) (rewardWei : Nat) (txHash : String) (heartbeats : Nat)
      (totalEarned : Option Nat) (balance : Option Nat) (errMsg : Option String)
  | pong
  deriving Repr, DecidableEq

/-- One iteration of `handleWSMessages` from the backend server,
returning the updated session and the frames written to the connection.
`outcome` is the result of `blockchain.ProcessReward`, and `balance`
the result of the follow-up `GetBalance` on success (`none` = lookup
failed, in which case the balance fields are simply omitted).  A
heartbeat is processed only when a wallet has been registered; an
unregistered heartbeat falls through the `if` with no settlement and no
reply.  A `register` with a string wallet address overwrites the
session's wallet (no reply); `ping` gets a pong. -/
def handleWSMessage (rewardPerHeartbeat : Nat) (outcome : Except GoError String)
    (balance : Option Nat) (sess : ClientSession) :
    WSMessage → ClientSession × List WSResponse
  | .register addrOpt =>
      match addrOpt with
      | some addr => ({ sess with walletAddress := addr }, [])
      | none => (sess, [])
  | .heartbeat =>
      if sess.walletAddress ≠ "" then
        match outcome with
        | .ok tx =>
            ({ sess with
                heartbeats := sess.heartbeats + 1
                totalEarned := sess.totalEarned + rewardPerHeartbeat },
              [.reward true rewardPerHeartbeat tx (sess.heartbeats + 1)
                (some (sess.totalEarned + rewardPerHeartbeat)) balance none])
        | .error e =>
            ({ sess with heartbeats := sess.heartbeats + 1 },
              [.reward false rewardPerHeartbeat "" (sess.heartbeats + 1) none none
                (some (errString e))])
      else (sess, [])
  | .ping => (sess, [.pong])
  | .other => (sess, [])

/-- The HTTP response written by `handleHeartbeat`: either an
`http.Error` (bad request) or the JSON `HeartbeatResponse`. -/
inductive HTTPResult where
  | badRequest (message : String)
  | jsonResponse (success : Bool) (rewardWei : Nat) (txHash : Option String)
      (message : String) (newBalance : Option String)
  deriving Repr, DecidableEq

/-- `handleHeartbeat` from the backend server: a body that fails to
decode gets a 400, an empty wallet address gets a 400, a failed
`ProcessReward` gets a JSON reply with `success = false` and the error
interpolated into the message, and a successful one gets a JSON reply
with the transaction hash, a success message, and the freshly read
balance when available.  (`decoded` is the parsed `wallet_address`;
the global stats counters it bumps on success are not part of the
claims modelled here.) -/
def handleHeartbeat (rewardPerHeartbeat : Nat) (outcome : Except GoError String)
    (decoded : Option String) (newBalance : Option String) : HTTPResult :=
  match decoded with
  | none => .badRequest "Invalid request body"
  | some wallet =>
      if wallet = "" then .badRequest "Wallet address required"
      else
        match outcome with
        | .error e =>
            .jsonResponse false rewardPerHeartbeat none
              ("Reward queued but transaction failed: " ++ errString e) none
        | .ok tx =>
            .jsonResponse true rewardPerHeartbeat (some tx)
              "Reward processed successfully" newBalance

/-- The message text of an HTTP reply. -/
def httpMessage : HTTPResult → String
  | .badRequest m => m
  | .jsonResponse _ _ _ m _ => m

/-- Whether a reward frame faithfully reports the given outcome: success
flag true with the transaction hash on success, success flag false with
the error text on failure. -/
def carriesOutcome (resp : WSResponse) (outcome : Except GoError String) : Prop :=
  match resp, outcome with
  | .reward s _ t _ _ _ none, .ok tx => s = true ∧ t = tx
  | .reward s _ _ _ _ _ (some m), .error e => s = false ∧ m = errString e
  | _, _ => False

/-- Success flag of a `ProcessReward` outcome. -/
def isOkB : Except GoError String → Bool
  | .ok _ => true
  | .error _ => false

/-- The success flag reported by an HTTP reply (`none` for a 400). -/
def httpSuccess : HTTPResult → Option Bool
  | .badRequest _ => none
  | .jsonResponse s _ _ _ _ => some s

/-- A sample registered session. -/
def sampleSession : ClientSession :=
  { walletAddress := "0xabc", heartbeats := 3, totalEarned := 2000 }

/-- A sample session that has not yet registered a wallet. -/
def freshSession : ClientSession :=
  { walletAddress := "", heartbeats := 0, totalEarned := 0 }

/-- C8 counterexample: a heartbeat arriving on an open WebSocket session
before a wallet is registered is silently dropped — the message loop
writes no frame at all, even though the outcome of a settlement would
have been available — so not every settlement attempt is answered. -/
theorem ws_heartbeat_unregistered_silently_dropped :
    (handleWSMessage 1000 (.ok "0xtx1") none freshSession .heartbeat).2 = [] ∧
    (handleWSMessage 1000 (.error .sendFailed) none freshSession .heartbeat).2 = [] := by
  constructor <;> rfl

/-- C8 amended: every HTTP settlement attempt is answered with a
response carrying a nonempty human-readable message, and — when the
request decodes with a nonempty wallet — the outcome's success flag.  A
WebSocket heartbeat from a session with a registered wallet is answered
with exactly one frame carrying the outcome (the transaction hash on
success, the error text on failure).  A WebSocket heartbeat from a
session with no registered wallet, however, is silently dropped: no
settlement is attempted and no frame is written. -/
theorem settlement_attempts_answered
    (rewardPerHeartbeat : Nat) (outcome : Except GoError String)
    (balance : Option Nat) (sess : ClientSession)
    (decoded : Option String) (newBalance : Option String) :
    httpMessage (handleHeartbeat rewardPerHeartbeat outcome decoded newBalance) ≠ "" ∧
    (∀ w, decoded = some w → w ≠ "" →
      httpSuccess (handleHeartbeat rewardPerHeartbeat outcome decoded newBalance) =
        some (isOkB outcome)) ∧
    (sess.walletAddress ≠ "" →
      ∃ r, (handleWSMessage rewardPerHeartbeat outcome balance sess .heartbeat).2 = [r] ∧
        carriesOutcome r outcome) ∧
    (sess.walletAddress = "" →
      (handleWSMessage rewardPerHeartbeat outcome balance sess .heartbeat).2 = []) := by
  refine ⟨?_, ?_, ?_, ?_⟩
  · cases decoded with
    | none =>
        simp only [handleHeartbeat, httpMessage]
        decide
    | some w =>
        by_cases hw : w = ""
        · subst hw
          show ("Wallet address required" : String) ≠ ""
          decide
        · cases outcome with
          | error e =>
              simp only [handleHeartbeat, if_neg hw, httpMessage]
              cases e <;> decide
          | ok tx =>
              simp only [handleHeartbeat, if_neg hw, httpMessage]
              decide
  · intro w hw hne
    subst hw
    cases outcome with
    | error e => simp [handleHeartbeat, hne, httpSuccess, isOkB]
    | ok tx => simp [handleHeartbeat, hne, httpSuccess, isOkB]
  · intro hreg
    cases outcome with
    | ok tx =>
        refine ⟨.reward true rewardPerHeartbeat tx (sess.heartbeats + 1)
          (some (sess.totalEarned + rewardPerHeartbeat)) balance none, ?_, ⟨rfl, rfl⟩⟩
        simp only [handleWSMessage, if_pos hreg]
    | error e =>
        refine ⟨.reward false rewardPerHeartbeat "" (sess.heartbeats + 1) none none
          (some (errString e)), ?_, ⟨rfl, rfl⟩⟩
        simp only [handleWSMessage, if_pos hreg]
  · intro hreg
    simp [handleWSMessage, hreg]

/-- C8 witness: on the registered sample session a heartbeat is answered
with exactly one frame carrying the outcome. -/
theorem settlement_attempts_answered_witness :
    sampleSession.walletAddress ≠ "" ∧
    (∃ r, (handleWSMessage 1000 (.ok "0xtx1") none sampleSession .heartbeat).2 = [r] ∧
      carriesOutcome r (.ok "0xtx1")) :=
  ⟨by decide,
    (settlement_attempts_answered 1000 (.ok "0xtx1") none sampleSession (some "0xabc")
      none).2.2.1 (by decide)⟩

/-- C9: a failed settlement attempt never changes the originating
session's cumulative `TotalEarned` (whatever the message), non-heartbeat
messages never change it either, and a successful heartbeat settlement
increments it by exactly the reward amount. -/
theorem session_earned_only_on_success
    (rewardPerHeartbeat : Nat) (outcome : Except GoError String)
    (balance : Option Nat) (sess : ClientSession) :
    (∀ e, outcome = .error e →
      ∀ msg, (handleWSMessage rewardPerHeartbeat outcome balance sess msg).1.totalEarned =
        sess.totalEarned) ∧
    (∀ msg, msg ≠ .heartbeat →
      (handleWSMessage rewardPerHeartbeat outcome balance sess msg).1.totalEarned =
        sess.totalEarned) ∧
    (∀ tx, outcome = .ok tx → sess.walletAddress ≠ "" →
      (handleWSMessage rewardPerHeartbeat outcome balance sess .heartbeat).1.totalEarned =
        sess.totalEarned + rewardPerHeartbeat) := by
  refine ⟨?_, ?_, ?_⟩
  · rintro e rfl msg
    cases msg with
    | register addrOpt => cases addrOpt <;> simp [handleWSMessage]
    | heartbeat =>
        by_cases hreg : sess.walletAddress = "" <;> simp [handleWSMessage, hreg]
    | ping => simp [handleWSMessage]
    | other => simp [handleWSMessage]
  · intro msg hmsg
    cases msg with
    | register addrOpt => cases addrOpt <;> simp [handleWSMessage]
    | heartbeat => exact absurd rfl hmsg
    | ping => simp [handleWSMessage]
    | other => simp [handleWSMessage]
  · rintro tx rfl hreg
    simp [handleWSMessage, hreg]

/-- C9 witness: on the sample session a failed heartbeat leaves the
earned total at 2000 and a successful one raises it to 3000. -/
theorem session_earned_only_on_success_witness :
    (handleWSMessage 1000 (.error .sendFailed) none sampleSession .heartbeat).1.totalEarned =
      sampleSession.totalEarned ∧
    (handleWSMessage 1000 (.ok "0xtx1") none sampleSession .heartbeat).1.totalEarned =
      sampleSession.totalEarned + 1000 :=
  ⟨(session_earned_only_on_success 1000 (.error .sendFailed) none sampleSession).1
      .sendFailed rfl .heartbeat,
    (session_earned_only_on_success 1000 (.ok "0xtx1") none sampleSession).2.2
      "0xtx1" rfl (by decide)⟩

end Server
